import Mathlib

/-!
Shallow embedding of the selfspy-rs capture-and-persistence core
(selfspy-core: encryption.rs, db.rs, platform/mod.rs, monitor.rs, config.rs),
with theorems checking the natural-language specification against it.

Modelling conventions:
* SQLite tables become in-memory lists of rows plus an AUTOINCREMENT counter
  per table (ids start at 1 and never repeat); `created_at` columns are wall
  clock I/O and are omitted.
* Fallible `sqlx` statements can fail for external I/O reasons; each call
  site in the monitor is given an explicit Boolean fault flag saying whether
  that statement fails on this tick.  On a modelled failure the tick returns
  the error before the statement's effect, matching the `?` control flow.
* The AES-256-GCM cipher is an external library; it is modelled as a
  structure bundling a seal/open pair together with the library's AEAD
  correctness contract.  The Encryptor's own logic (random 96-bit nonce
  prepended to the sealed bytes, 12-byte split and minimum-length check on
  decrypt) is translated from encryption.rs.  The fresh random nonce drawn
  from OsRng is passed in as an explicit 12-byte argument.
* Rust `String` byte-level operations (`as_bytes`, `len`) are modelled by an
  explicit UTF-8 encoder over the Lean string's characters.
-/

/-- Error taxonomy of the core: capture, storage and crypto failures
(anyhow errors in the source, collapsed to their origin). -/
inductive MonError where
  | tracker
  | storage
  | crypto
deriving DecidableEq

instance instDecEqExcept {ε α : Type} [DecidableEq ε] [DecidableEq α] :
    DecidableEq (Except ε α) := fun a b =>
  match a, b with
  | .ok x, .ok y =>
      if h : x = y then .isTrue (h ▸ rfl)
      else .isFalse (fun hq => h (by injection hq))
  | .error x, .error y =>
      if h : x = y then .isTrue (h ▸ rfl)
      else .isFalse (fun hq => h (by injection hq))
  | .ok _, .error _ => .isFalse (fun hq => Except.noConfusion hq)
  | .error _, .ok _ => .isFalse (fun hq => Except.noConfusion hq)

/-- Result::ok from Rust: keep the success value, discard the error. -/
def resultOk {α : Type} : Except MonError α → Option α
  | .ok a => some a
  | .error _ => none

/-- UTF-8 encoding of a single character (the byte representation Rust's
String stores; str::as_bytes exposes it). -/
def charUtf8Bytes (c : Char) : List Nat :=
  let n := c.toNat
  if n < 128 then [n]
  else if n < 2048 then [192 + n / 64, 128 + n % 64]
  else if n < 65536 then [224 + n / 4096, 128 + (n / 64) % 64, 128 + n % 64]
  else [240 + n / 262144, 128 + (n / 4096) % 64, 128 + (n / 64) % 64, 128 + n % 64]

/-- Rust `buffer.as_bytes()`: the UTF-8 bytes of the string; its length is
Rust's `buffer.len()`. -/
def strBytes (s : String) : List Nat :=
  (s.data.map charUtf8Bytes).flatten

/-- AES-256-GCM as provided by the aes_gcm crate: sealing and opening of a
payload under a 96-bit nonce, bundled with the library's AEAD correctness
contract (opening a sealed payload under the same nonce returns it). -/
structure Aes256Gcm where
  sealBytes : List Nat → List Nat → List Nat
  openBytes : List Nat → List Nat → Option (List Nat)
  open_seal : ∀ nonce pt, openBytes nonce (sealBytes nonce pt) = some pt

/-- Encryptor (encryption.rs): holds the cipher derived from the passphrase. -/
structure Encryptor where
  cipher : Aes256Gcm

/-- Encryptor::encrypt (encryption.rs lines 31-44): seal the plaintext under a
fresh 96-bit nonce and return nonce ++ ciphertext-with-tag.  The nonce drawn
from OsRng is the explicit `nonce_bytes` argument. -/
def Encryptor.encrypt (e : Encryptor) (nonce_bytes plaintext : List Nat) : List Nat :=
  nonce_bytes ++ e.cipher.sealBytes nonce_bytes plaintext

/-- Encryptor::decrypt (encryption.rs lines 46-59): reject payloads shorter
than the 12-byte nonce, split at 12, open the remainder under the leading
nonce; an authentication failure is a crypto error. -/
def Encryptor.decrypt (e : Encryptor) (ciphertext : List Nat) : Except MonError (List Nat) :=
  if ciphertext.length < 12 then .error .crypto
  else
    match e.cipher.openBytes (ciphertext.take 12) (ciphertext.drop 12) with
    | some plaintext => .ok plaintext
    | none => .error .crypto

/-- Degenerate AEAD instance (sealing is the identity) used only to build
concrete Encryptor values in example runs; it satisfies the AEAD contract. -/
def plainCipher : Aes256Gcm := ⟨fun _ pt => pt, fun _ ct => some ct, fun _ _ => rfl⟩

/-- Concrete Encryptor over the degenerate cipher, for example runs. -/
def plainEncryptor : Encryptor := ⟨plainCipher⟩

/-- Row of the processes table (db.rs migrate): name is UNIQUE. -/
structure ProcessRow where
  id : Int
  name : String
  bundle_id : Option String
deriving DecidableEq

/-- Row of the windows table (db.rs migrate). -/
structure WindowRow where
  id : Int
  process_id : Int
  title : String
  x : Option Int
  y : Option Int
  width : Option Int
  height : Option Int
deriving DecidableEq

/-- Row of the keys table (db.rs migrate): one keystroke batch. -/
structure KeysRow where
  id : Int
  window_id : Int
  encrypted_keys : List Nat
  key_count : Int
deriving DecidableEq

/-- Row of the clicks table (db.rs migrate). -/
structure ClickRow where
  id : Int
  window_id : Int
  x : Int
  y : Int
  button : String
  double_click : Bool
deriving DecidableEq

/-- The embedded SQLite store: four tables plus one AUTOINCREMENT counter per
table (SQLite row ids start at 1). -/
structure Database where
  processes : List ProcessRow
  windows : List WindowRow
  keys : List KeysRow
  clicks : List ClickRow
  next_process_id : Int
  next_window_id : Int
  next_keys_id : Int
  next_click_id : Int
deriving DecidableEq

/-- Freshly migrated store: all four tables empty (db.rs Database::new). -/
def Database.empty : Database := ⟨[], [], [], [], 1, 1, 1, 1⟩

/-- Database::insert_process (db.rs lines 93-114): INSERT OR IGNORE on the
UNIQUE name; when the insert is ignored (zero rows affected) read the id of
the existing row back by name, otherwise return the fresh rowid. -/
def Database.insert_process (db : Database) (name : String) (bundle_id : Option String) :
    Int × Database :=
  match db.processes.find? (fun r => r.name == name) with
  | some r => (r.id, db)
  | none =>
      let id := db.next_process_id
      (id, { db with processes := db.processes ++ [⟨id, name, bundle_id⟩],
                     next_process_id := id + 1 })

/-- Database::insert_window (db.rs lines 116-141): plain INSERT returning the
fresh rowid. -/
def Database.insert_window (db : Database) (process_id : Int) (title : String)
    (x y width height : Option Int) : Int × Database :=
  let id := db.next_window_id
  (id, { db with windows := db.windows ++ [⟨id, process_id, title, x, y, width, height⟩],
                 next_window_id := id + 1 })

/-- Database::insert_keys (db.rs lines 143-162): plain INSERT returning the
fresh rowid. -/
def Database.insert_keys (db : Database) (window_id : Int) (encrypted_keys : List Nat)
    (key_count : Int) : Int × Database :=
  let id := db.next_keys_id
  (id, { db with keys := db.keys ++ [⟨id, window_id, encrypted_keys, key_count⟩],
                 next_keys_id := id + 1 })

/-- Database::insert_click (db.rs lines 164-187): plain INSERT returning the
fresh rowid. -/
def Database.insert_click (db : Database) (window_id : Int) (x y : Int) (button : String)
    (double_click : Bool) : Int × Database :=
  let id := db.next_click_id
  (id, { db with clicks := db.clicks ++ [⟨id, window_id, x, y, button, double_click⟩],
                 next_click_id := id + 1 })

/-- WindowInfo (platform/mod.rs lines 4-13). -/
structure WindowInfo where
  process_name : String
  window_title : String
  bundle_id : Option String
  x : Option Int
  y : Option Int
  width : Option Int
  height : Option Int
deriving DecidableEq

/-- MouseButton (platform/mod.rs lines 24-29). -/
inductive MouseButton where
  | left
  | right
  | middle
deriving DecidableEq

/-- MouseButton::as_str (platform/mod.rs lines 31-39). -/
def MouseButton.as_str : MouseButton → String
  | .left => "left"
  | .right => "right"
  | .middle => "middle"

/-- InputEvent (platform/mod.rs lines 15-22); the scroll deltas are f64 in the
source but are never inspected by the core, so they are carried as integers. -/
inductive InputEvent where
  | keyPress (key : String)
  | keyRelease (key : String)
  | mouseMove (x y : Int)
  | mouseClick (x y : Int) (button : MouseButton)
  | mouseScroll (delta_x delta_y : Int)
deriving DecidableEq

/-- Recognizer for the MouseClick variant. -/
def isMouseClick : InputEvent → Bool
  | .mouseClick _ _ _ => true
  | _ => false

/-- Configuration fields the core reads (config.rs): the encryption flag and
the excluded process names; paths and intervals are I/O and timing. -/
structure Config where
  encryption_enabled : Bool
  exclude_apps : List String
deriving DecidableEq

/-- In-memory monitor state (monitor.rs lines 13-21): the store handle, the
current-window pointer and the pending keystroke buffer. -/
structure MonState where
  db : Database
  current_window : Option (Int × WindowInfo)
  keystroke_buffer : String
deriving DecidableEq

/-- State of a freshly constructed monitor over a freshly migrated store
(monitor.rs lines 41-42): no current window, empty buffer. -/
def MonState.initial : MonState := ⟨Database.empty, none, ""⟩

/-- Fault flags for one tick: whether the insert_process, insert_window,
insert_click and insert_keys statements fail (external I/O) on this tick. -/
structure TickFaults where
  procFail : Bool
  winFail : Bool
  clickFail : Bool
  keysFail : Bool

/-- Fault assignment under which every store write succeeds. -/
def noFaults : TickFaults := ⟨false, false, false, false⟩

/-- Window-identity comparison of the tick (monitor.rs lines 63-65): update
when there is no current window or when the process name or window title
differs by exact string equality. -/
def should_update (current : Option (Int × WindowInfo)) (window : WindowInfo) : Bool :=
  match current with
  | some (_, w) => w.process_name != window.process_name || w.window_title != window.window_title
  | none => true

/-- Window-change step of the tick (monitor.rs lines 60-86): on a successful
window read, when the identity changed and the process is not excluded,
insert the process and a fresh window row and point current_window at it;
the two inserts propagate their errors (the `?` operator). -/
def trackWindowChange (config : Config) (procFail winFail : Bool)
    (window_read : Option WindowInfo) (s : MonState) : Except MonError MonState :=
  match window_read with
  | none => .ok s
  | some window =>
      if should_update s.current_window window
          && !(config.exclude_apps.contains window.process_name) then
        if procFail then .error .storage
        else if winFail then .error .storage
        else
          let (process_id, db1) := s.db.insert_process window.process_name window.bundle_id
          let (window_id, db2) := db1.insert_window process_id window.window_title
            window.x window.y window.width window.height
          .ok { s with db := db2, current_window := some (window_id, window) }
      else .ok s

/-- One arm of the input-event loop (monitor.rs lines 90-103): a KeyPress
appends to the buffer; a MouseClick with a known current window inserts one
click row (error propagated by `?`), without one it is dropped; every other
event is ignored. -/
def processOneEvent (clickFail : Bool) (s : MonState) : InputEvent → Except MonError MonState
  | .keyPress key => .ok { s with keystroke_buffer := s.keystroke_buffer ++ key }
  | .mouseClick x y button =>
      match s.current_window with
      | some (window_id, _) =>
          if clickFail then .error .storage else
          let (_, db1) := s.db.insert_click window_id x y button.as_str false
          .ok { s with db := db1 }
      | none => .ok s
  | _ => .ok s

/-- Input-event loop of the tick (monitor.rs lines 88-103): the events are
handled in drain order; the first propagated error aborts the loop. -/
def processEvents (clickFail : Bool) (events : List InputEvent) (s : MonState) :
    Except MonError MonState :=
  match events with
  | [] => .ok s
  | e :: rest =>
      match processOneEvent clickFail s e with
      | .error err => .error err
      | .ok s1 => processEvents clickFail rest s1

/-- Payload written by a flush (monitor.rs lines 130-134): the buffer's bytes
sealed by the encryptor when one is present, the raw bytes otherwise. -/
def flushPayload (encryptor : Option Encryptor) (nonce : List Nat) (buffer : String) :
    List Nat :=
  match encryptor with
  | some e => e.encrypt nonce (strBytes buffer)
  | none => strBytes buffer

/-- ActivityMonitor::flush_keystrokes (monitor.rs lines 122-144): nothing on
an empty buffer; with a known current window write one keys row carrying the
payload and the buffer's byte length, then clear the buffer; without one
leave the buffer to accumulate. -/
def flush_keystrokes (encryptor : Option Encryptor) (nonce : List Nat) (keysFail : Bool)
    (s : MonState) : Except MonError MonState :=
  if s.keystroke_buffer.isEmpty then .ok s
  else
    match s.current_window with
    | some (window_id, _) =>
        if keysFail then .error .storage
        else
          let (_, db1) := s.db.insert_keys window_id
            (flushPayload encryptor nonce s.keystroke_buffer)
            ((strBytes s.keystroke_buffer).length : Int)
          .ok { s with db := db1, keystroke_buffer := "" }
    | none => .ok s

/-- One iteration of the monitor loop (monitor.rs lines 56-109): window
reconciliation, event draining, then the flush whose failure is only logged
(lines 106-108) while insert_process, insert_window and insert_click failures
propagate out of start via `?`.  window_read is the result of the active
window read (none for a tracker error, which the loop skips), nonce the OsRng
nonce a flush would draw, and the four Booleans the fault flags of the four
store writes. -/
def tick (config : Config) (encryptor : Option Encryptor) (window_read : Option WindowInfo)
    (events : List InputEvent) (nonce : List Nat) (procFail winFail clickFail keysFail : Bool)
    (s : MonState) : Except MonError MonState :=
  match trackWindowChange config procFail winFail window_read s with
  | .error e => .error e
  | .ok s1 =>
      match processEvents clickFail events s1 with
      | .error e => .error e
      | .ok s2 =>
          match flush_keystrokes encryptor nonce keysFail s2 with
          | .ok s3 => .ok s3
          | .error _ => .ok s2

/-- Inputs the outside world supplies to one tick of the loop. -/
structure TickInput where
  window_read : Option WindowInfo
  events : List InputEvent
  nonce : List Nat
  faults : TickFaults

/-- The monitor loop run over a finite list of tick inputs; the first
propagated tick error aborts the loop, as in start. -/
def runTicks (config : Config) (encryptor : Option Encryptor) (inputs : List TickInput)
    (s : MonState) : Except MonError MonState :=
  match inputs with
  | [] => .ok s
  | inp :: rest =>
      match tick config encryptor inp.window_read inp.events inp.nonce
          inp.faults.procFail inp.faults.winFail inp.faults.clickFail inp.faults.keysFail s with
      | .error e => .error e
      | .ok s1 => runTicks config encryptor rest s1

/-- Construction-time data of the monitor relevant to encryption. -/
structure ActivityMonitor where
  config : Config
  encryptor : Option Encryptor

/-- ActivityMonitor::new (monitor.rs lines 24-45): with encryption enabled the
encryptor is `password.map(|p| Encryptor::new(&p).ok()).flatten()` — a failed
key derivation is discarded by `.ok()` and leaves encryptor = None.  The
`encryptorNew` argument is the outcome of Encryptor::new per passphrase;
ensure_directories and Database::new are directory/database I/O modelled as
succeeding (their failures propagate via `?` in the source). -/
def ActivityMonitor.new (config : Config) (password : Option String)
    (encryptorNew : String → Except MonError Encryptor) : Except MonError ActivityMonitor :=
  let encryptor :=
    if config.encryption_enabled then
      (password.map (fun p => resultOk (encryptorNew p))).join
    else none
  .ok { config := config, encryptor := encryptor }

/-- Example window of process "A" titled "t1". -/
def wExA : WindowInfo := ⟨"A", "t1", none, none, none, none, none⟩

/-- Example window of process "B" titled "t2". -/
def wExB : WindowInfo := ⟨"B", "t2", none, none, none, none, none⟩

/-- Example window of the password manager process "Bitwarden". -/
def wExBit : WindowInfo := ⟨"Bitwarden", "Vault", none, none, none, none, none⟩

/-- Example configuration with an empty exclusion set. -/
def cfgPlain : Config := ⟨false, []⟩

/-- Example configuration excluding "Bitwarden". -/
def cfgBit : Config := ⟨false, ["Bitwarden"]⟩

/-- Round trip of the Encryptor: sealing under a 12-byte nonce and opening the
prepended-nonce payload recovers the plaintext (shared helper). -/
theorem Encryptor.decrypt_encrypt (e : Encryptor) (nonce p : List Nat)
    (h : nonce.length = 12) : e.decrypt (e.encrypt nonce p) = .ok p := by
  have ht : (nonce ++ e.cipher.sealBytes nonce p).take 12 = nonce := by
    rw [← h, List.take_left]
  have hd : (nonce ++ e.cipher.sealBytes nonce p).drop 12 = e.cipher.sealBytes nonce p := by
    rw [← h, List.drop_left]
  have hlen : ¬ (nonce ++ e.cipher.sealBytes nonce p).length < 12 := by
    rw [List.length_append, h]
    omega
  unfold Encryptor.encrypt Encryptor.decrypt
  rw [if_neg hlen, ht, hd, e.cipher.open_seal]

/-- C1: for every byte sequence p, decrypting the result of encrypting p with
the same Encryptor instance (under the 96-bit nonce that encrypt drew from
OsRng) returns exactly p. -/
theorem encryptor_roundtrip (e : Encryptor) (nonce p : List Nat)
    (h : nonce.length = 12) : e.decrypt (e.encrypt nonce p) = .ok p :=
  Encryptor.decrypt_encrypt e nonce p h

/-- Witness for C1 at a concrete Encryptor, nonce and plaintext. -/
theorem encryptor_roundtrip_witness :
    (List.replicate 12 0).length = 12 ∧
      plainEncryptor.decrypt (plainEncryptor.encrypt (List.replicate 12 0) [1, 2, 3])
        = .ok [1, 2, 3] :=
  ⟨by decide, encryptor_roundtrip plainEncryptor (List.replicate 12 0) [1, 2, 3] (by decide)⟩

/-- C8: two encryptions of the same plaintext under distinct 96-bit nonces
differ in their first 12 bytes, hence yield different output sequences. -/
theorem encrypt_nonce_distinct (e : Encryptor) (n1 n2 p : List Nat)
    (h1 : n1.length = 12) (h2 : n2.length = 12) (hne : n1 ≠ n2) :
    (e.encrypt n1 p).take 12 ≠ (e.encrypt n2 p).take 12 ∧
      e.encrypt n1 p ≠ e.encrypt n2 p := by
  have t1 : (e.encrypt n1 p).take 12 = n1 := by
    rw [Encryptor.encrypt, ← h1, List.take_left]
  have t2 : (e.encrypt n2 p).take 12 = n2 := by
    rw [Encryptor.encrypt, ← h2, List.take_left]
  constructor
  · rw [t1, t2]; exact hne
  · intro hq
    apply hne
    rw [← t1, ← t2, hq]

/-- Witness for C8 at a concrete Encryptor, nonces and plaintext. -/
theorem encrypt_nonce_distinct_witness :
    (List.replicate 12 0 : List Nat) ≠ List.replicate 12 1 ∧
      plainEncryptor.encrypt (List.replicate 12 0) [7]
        ≠ plainEncryptor.encrypt (List.replicate 12 1) [7] :=
  ⟨by decide,
    (encrypt_nonce_distinct plainEncryptor (List.replicate 12 0) (List.replicate 12 1) [7]
      (by decide) (by decide) (by decide)).2⟩

/-- C3: evaluation of ActivityMonitor::new at the failing input.  With
encryption enabled, a supplied passphrase and a failing key derivation, the
constructor still succeeds and returns a monitor whose encryptor is None
(the `.ok()` in monitor.rs line 31 discards the CryptoError); a later flush
on such a monitor persists the keystroke buffer's raw plaintext bytes. -/
theorem derivation_failure_ignored :
    ActivityMonitor.new ⟨true, []⟩ (some "hunter2") (fun _ => .error .crypto)
        = .ok ⟨⟨true, []⟩, none⟩
      ∧ flush_keystrokes none [] false ⟨Database.empty, some (1, wExA), "pw"⟩
        = .ok ⟨⟨[], [], [⟨1, 1, strBytes "pw", 2⟩], [], 1, 1, 2, 1⟩, some (1, wExA), ""⟩ :=
  ⟨rfl, by decide⟩

/-- Append on the left of find? when the left part has no match. -/
theorem find?_append_of_none {α : Type} (p : α → Bool) (l1 l2 : List α)
    (h : l1.find? p = none) : (l1 ++ l2).find? p = l2.find? p := by
  rw [List.find?_append, h]
  rfl

/-- A list on which find? fails filters to nil. -/
theorem filter_eq_nil_of_find?_none {α : Type} (p : α → Bool) (l : List α)
    (h : l.find? p = none) : l.filter p = [] := by
  rw [List.filter_eq_nil_iff]
  exact fun a ha => List.find?_eq_none.mp h a ha

/-- With pairwise-distinct names, a successful find? by name means the filter
by that name has exactly one element. -/
theorem filter_name_length_one (l : List ProcessRow) (n : String) (r : ProcessRow)
    (hu : l.Pairwise (fun a b => a.name ≠ b.name))
    (h : l.find? (fun x => x.name == n) = some r) :
    (l.filter (fun x => x.name == n)).length = 1 := by
  induction l with
  | nil => exact absurd h (by simp)
  | cons a t ih =>
      rw [List.pairwise_cons] at hu
      by_cases hpa : (a.name == n) = true
      · have hn : a.name = n := by simpa using hpa
        have ht : t.filter (fun x => x.name == n) = [] := by
          rw [List.filter_eq_nil_iff]
          intro b hb
          have hne : a.name ≠ b.name := hu.1 b hb
          simp only [beq_iff_eq]
          intro hbn
          exact hne (by rw [hn, hbn])
        rw [@List.filter_cons_of_pos _ (fun x => x.name == n) a t hpa, ht]
        rfl
      · have h' : t.find? (fun x => x.name == n) = some r := by
          rwa [@List.find?_cons_of_neg _ (fun x => x.name == n) a t hpa] at h
        rw [@List.filter_cons_of_neg _ (fun x => x.name == n) a t hpa]
        exact ih hu.2 h'

/-- C4: insert_process is idempotent by name.  On a store whose process names
are pairwise distinct (the UNIQUE constraint), a second call with the same
name and any bundle id returns the same id and leaves the store unchanged,
and the store after the first call holds exactly one row with that name. -/
theorem insert_process_idem (db : Database) (n : String) (b1 b2 : Option String)
    (id1 : Int) (db1 : Database)
    (hu : db.processes.Pairwise (fun a b => a.name ≠ b.name))
    (h1 : db.insert_process n b1 = (id1, db1)) :
    db1.insert_process n b2 = (id1, db1)
      ∧ (db1.processes.filter (fun r => r.name == n)).length = 1 := by
  unfold Database.insert_process at h1
  cases hf : db.processes.find? (fun r => r.name == n) with
  | some r =>
      simp only [hf] at h1
      rw [Prod.mk.injEq] at h1
      obtain ⟨hid, hdb⟩ := h1
      subst hdb
      constructor
      · unfold Database.insert_process
        simp only [hf, hid]
      · exact filter_name_length_one db.processes n r hu hf
  | none =>
      simp only [hf] at h1
      rw [Prod.mk.injEq] at h1
      obtain ⟨hid, hdb⟩ := h1
      subst hdb
      have hnew : ((⟨db.next_process_id, n, b1⟩ : ProcessRow).name == n) = true := by
        simp
      have hfind : (db.processes ++ [(⟨db.next_process_id, n, b1⟩ : ProcessRow)]).find?
          (fun r => r.name == n) = some ⟨db.next_process_id, n, b1⟩ := by
        rw [find?_append_of_none _ _ _ hf]
        rw [@List.find?_cons_of_pos ProcessRow (fun r => r.name == n)
          ⟨db.next_process_id, n, b1⟩ [] hnew]
      constructor
      · unfold Database.insert_process
        simp only [hfind]
        rw [hid]
      · simp only [List.filter_append, filter_eq_nil_of_find?_none _ _ hf, List.nil_append]
        rw [@List.filter_cons_of_pos ProcessRow (fun r => r.name == n)
          ⟨db.next_process_id, n, b1⟩ [] hnew]
        rfl

/-- Witness for C4: inserting "Chrome" twice into the empty store. -/
theorem insert_process_idem_witness :
    Database.empty.insert_process "Chrome" none
        = (1, ⟨[⟨1, "Chrome", none⟩], [], [], [], 2, 1, 1, 1⟩)
      ∧ (⟨[⟨1, "Chrome", none⟩], [], [], [], 2, 1, 1, 1⟩ : Database).insert_process "Chrome" none
        = (1, ⟨[⟨1, "Chrome", none⟩], [], [], [], 2, 1, 1, 1⟩)
      ∧ ((⟨[⟨1, "Chrome", none⟩], [], [], [], 2, 1, 1, 1⟩ : Database).processes.filter
          (fun r => r.name == "Chrome")).length = 1 :=
  ⟨by decide,
    (insert_process_idem Database.empty "Chrome" none none 1
      ⟨[⟨1, "Chrome", none⟩], [], [], [], 2, 1, 1, 1⟩ (List.Pairwise.nil) (by decide)).1,
    (insert_process_idem Database.empty "Chrome" none none 1
      ⟨[⟨1, "Chrome", none⟩], [], [], [], 2, 1, 1, 1⟩ (List.Pairwise.nil) (by decide)).2⟩

/-- Frame of insert_process: every table and counter other than the processes
table and its counter is unchanged. -/
theorem insert_process_frame (db : Database) (n : String) (b : Option String) :
    (db.insert_process n b).2.windows = db.windows
      ∧ (db.insert_process n b).2.keys = db.keys
      ∧ (db.insert_process n b).2.clicks = db.clicks
      ∧ (db.insert_process n b).2.next_window_id = db.next_window_id
      ∧ (db.insert_process n b).2.next_keys_id = db.next_keys_id
      ∧ (db.insert_process n b).2.next_click_id = db.next_click_id := by
  unfold Database.insert_process
  cases db.processes.find? (fun r => r.name == n) <;> simp

/-- Branch of the tick on a failed window read: the state passes through. -/
theorem trackWindowChange_none (config : Config) (pf wf : Bool) (s : MonState) :
    trackWindowChange config pf wf none s = .ok s := rfl

/-- Branch of the tick on an excluded process: no write and no pointer update
happen, whether or not the identity changed. -/
theorem trackWindowChange_excluded (config : Config) (pf wf : Bool) (w : WindowInfo)
    (s : MonState) (hexc : config.exclude_apps.contains w.process_name = true) :
    trackWindowChange config pf wf (some w) s = .ok s := by
  simp only [trackWindowChange]
  have hc : (should_update s.current_window w
      && !config.exclude_apps.contains w.process_name) = false := by
    rw [hexc]
    simp
  rw [hc]
  rfl

/-- Branch of the tick on a changed, non-excluded window with both writes
succeeding: the process is upserted, one window row is inserted and the
pointer moves to it. -/
theorem trackWindowChange_change (config : Config) (w : WindowInfo) (s : MonState)
    (hsu : should_update s.current_window w = true)
    (hexc : config.exclude_apps.contains w.process_name = false) :
    trackWindowChange config false false (some w) s =
      .ok { s with
        db := ((s.db.insert_process w.process_name w.bundle_id).2.insert_window
            (s.db.insert_process w.process_name w.bundle_id).1
            w.window_title w.x w.y w.width w.height).2,
        current_window :=
          some ((s.db.insert_process w.process_name w.bundle_id).2.next_window_id, w) } := by
  simp only [trackWindowChange]
  rw [hsu, hexc]
  rfl

/-- Branch of the tick on a changed, non-excluded window with the process
write failing: the storage error propagates. -/
theorem trackWindowChange_procFail (config : Config) (wf : Bool) (w : WindowInfo)
    (s : MonState) (hsu : should_update s.current_window w = true)
    (hexc : config.exclude_apps.contains w.process_name = false) :
    trackWindowChange config true wf (some w) s = .error .storage := by
  simp only [trackWindowChange]
  rw [hsu, hexc]
  rfl

/-- Branch of the tick on a changed, non-excluded window with the window
write failing: the storage error propagates. -/
theorem trackWindowChange_winFail (config : Config) (w : WindowInfo)
    (s : MonState) (hsu : should_update s.current_window w = true)
    (hexc : config.exclude_apps.contains w.process_name = false) :
    trackWindowChange config false true (some w) s = .error .storage := by
  simp only [trackWindowChange]
  rw [hsu, hexc]
  rfl

/-- With both its writes succeeding, the window-change step never fails. -/
theorem trackWindowChange_total (config : Config) (wr : Option WindowInfo) (s : MonState) :
    ∃ s1, trackWindowChange config false false wr s = .ok s1 := by
  cases wr with
  | none => exact ⟨s, rfl⟩
  | some w =>
      simp only [trackWindowChange]
      by_cases hc : (should_update s.current_window w
          && !config.exclude_apps.contains w.process_name) = true
      · rw [if_pos hc]
        exact ⟨_, rfl⟩
      · rw [if_neg hc]
        exact ⟨s, rfl⟩

/-- The window-change step leaves the keys and clicks tables unchanged. -/
theorem trackWindowChange_frame (config : Config) (pf wf : Bool) (wr : Option WindowInfo)
    (s s' : MonState) (h : trackWindowChange config pf wf wr s = .ok s') :
    s'.db.keys = s.db.keys ∧ s'.db.clicks = s.db.clicks
      ∧ s'.db.next_keys_id = s.db.next_keys_id
      ∧ s'.db.next_click_id = s.db.next_click_id
      ∧ s'.keystroke_buffer = s.keystroke_buffer := by
  unfold trackWindowChange at h
  split at h
  · injection h with h2
    subst h2
    exact ⟨rfl, rfl, rfl, rfl, rfl⟩
  · split at h
    · split at h
      · exact absurd h (by simp)
      · split at h
        · exact absurd h (by simp)
        · injection h with h2
          subst h2
          obtain ⟨hw, hk, hc, hnw, hnk, hnc⟩ :=
            insert_process_frame s.db _ _
          exact ⟨hk, hc, hnk, hnc, rfl⟩
    · injection h with h2
      subst h2
      exact ⟨rfl, rfl, rfl, rfl, rfl⟩

/-- One drained event leaves the current-window pointer and the processes,
windows and keys tables unchanged. -/
theorem processOneEvent_preserves (c : Bool) (s s' : MonState) (e : InputEvent)
    (h : processOneEvent c s e = .ok s') :
    s'.current_window = s.current_window ∧ s'.db.processes = s.db.processes
      ∧ s'.db.windows = s.db.windows ∧ s'.db.keys = s.db.keys := by
  cases e with
  | keyPress key =>
      injection h with h2
      subst h2
      exact ⟨rfl, rfl, rfl, rfl⟩
  | keyRelease key =>
      injection h with h2
      subst h2
      exact ⟨rfl, rfl, rfl, rfl⟩
  | mouseMove x y =>
      injection h with h2
      subst h2
      exact ⟨rfl, rfl, rfl, rfl⟩
  | mouseScroll dx dy =>
      injection h with h2
      subst h2
      exact ⟨rfl, rfl, rfl, rfl⟩
  | mouseClick x y b =>
      simp only [processOneEvent] at h
      split at h
      · split at h
        · exact absurd h (by simp)
        · injection h with h2
          subst h2
          exact ⟨rfl, rfl, rfl, rfl⟩
      · injection h with h2
        subst h2
        exact ⟨rfl, rfl, rfl, rfl⟩

/-- The whole event loop leaves the current-window pointer and the processes,
windows and keys tables unchanged. -/
theorem processEvents_preserves (c : Bool) (evs : List InputEvent) (s s' : MonState)
    (h : processEvents c evs s = .ok s') :
    s'.current_window = s.current_window ∧ s'.db.processes = s.db.processes
      ∧ s'.db.windows = s.db.windows ∧ s'.db.keys = s.db.keys := by
  induction evs generalizing s with
  | nil =>
      injection h with h2
      subst h2
      exact ⟨rfl, rfl, rfl, rfl⟩
  | cons e t ih =>
      simp only [processEvents] at h
      split at h
      · exact absurd h (by simp)
      · rename_i s1 heq
        have p1 := processOneEvent_preserves c s s1 e heq
        have pt := ih s1 h
        exact ⟨pt.1.trans p1.1, pt.2.1.trans p1.2.1, pt.2.2.1.trans p1.2.2.1,
          pt.2.2.2.trans p1.2.2.2⟩

/-- A single drained event never fails when the click write succeeds. -/
theorem processOneEvent_total (s : MonState) (e : InputEvent) :
    ∃ s1, processOneEvent false s e = .ok s1 := by
  cases e with
  | keyPress key => exact ⟨_, rfl⟩
  | keyRelease key => exact ⟨_, rfl⟩
  | mouseMove x y => exact ⟨_, rfl⟩
  | mouseScroll dx dy => exact ⟨_, rfl⟩
  | mouseClick x y b =>
      cases hc : s.current_window with
      | none =>
          refine ⟨s, ?_⟩
          simp only [processOneEvent, hc]
      | some pair =>
          obtain ⟨wid, w⟩ := pair
          refine ⟨{ s with db := (s.db.insert_click wid x y b.as_str false).2 }, ?_⟩
          simp only [processOneEvent, hc]
          rfl

/-- The event loop never fails when the click write succeeds. -/
theorem processEvents_total (evs : List InputEvent) (s : MonState) :
    ∃ s', processEvents false evs s = .ok s' := by
  induction evs generalizing s with
  | nil => exact ⟨s, rfl⟩
  | cons e t ih =>
      obtain ⟨s1, he⟩ := processOneEvent_total s e
      obtain ⟨s', ht⟩ := ih s1
      refine ⟨s', ?_⟩
      simp only [processEvents, he, ht]

/-- A flush leaves the current-window pointer and the processes, windows and
clicks tables unchanged. -/
theorem flush_preserves (encryptor : Option Encryptor) (nonce : List Nat) (kf : Bool)
    (s s' : MonState) (h : flush_keystrokes encryptor nonce kf s = .ok s') :
    s'.current_window = s.current_window ∧ s'.db.processes = s.db.processes
      ∧ s'.db.windows = s.db.windows ∧ s'.db.clicks = s.db.clicks := by
  unfold flush_keystrokes at h
  split at h
  · injection h with h2
    subst h2
    exact ⟨rfl, rfl, rfl, rfl⟩
  · split at h
    · split at h
      · exact absurd h (by simp)
      · injection h with h2
        subst h2
        exact ⟨rfl, rfl, rfl, rfl⟩
    · injection h with h2
      subst h2
      exact ⟨rfl, rfl, rfl, rfl⟩

/-- A successful tick decomposes into a successful window-change step, a
successful event loop, and a flush that either succeeded or had its error
swallowed by the log-and-continue arm. -/
theorem tick_ok_decomp (config : Config) (encryptor : Option Encryptor)
    (wr : Option WindowInfo) (evs : List InputEvent) (nonce : List Nat)
    (pf wf cf kf : Bool) (s s' : MonState)
    (hok : tick config encryptor wr evs nonce pf wf cf kf s = .ok s') :
    ∃ s1 s2, trackWindowChange config pf wf wr s = .ok s1
      ∧ processEvents cf evs s1 = .ok s2
      ∧ (flush_keystrokes encryptor nonce kf s2 = .ok s' ∨ s' = s2) := by
  unfold tick at hok
  split at hok
  · exact absurd hok (by simp)
  · rename_i s1 heq
    split at hok
    · exact absurd hok (by simp)
    · rename_i s2 heq2
      split at hok
      · rename_i s3 heq3
        injection hok with h4
        subst h4
        exact ⟨s1, s2, heq, heq2, Or.inl heq3⟩
      · rename_i e3 heq3
        injection hok with h4
        exact ⟨s1, s2, heq, heq2, Or.inr h4.symm⟩

/-- Drain-time click accounting: with a known current window and no click
fault, the event loop appends exactly one click row per MouseClick event,
every appended row tagged with the drain-time window id and a false
double-click flag, and the pointer is untouched. -/
theorem processEvents_click_spec (evs : List InputEvent) (s : MonState) (wid : Int)
    (w : WindowInfo) (hcur : s.current_window = some (wid, w)) :
    ∃ s' rows, processEvents false evs s = .ok s'
      ∧ s'.db.clicks = s.db.clicks ++ rows
      ∧ rows.length = evs.countP isMouseClick
      ∧ (∀ r ∈ rows, r.window_id = wid ∧ r.double_click = false)
      ∧ s'.current_window = s.current_window := by
  induction evs generalizing s with
  | nil =>
      refine ⟨s, [], rfl, by simp, by simp, by simp, rfl⟩
  | cons e t ih =>
      cases e with
      | mouseClick x y b =>
          have he : processOneEvent false s (.mouseClick x y b)
              = .ok { s with db := (s.db.insert_click wid x y b.as_str false).2 } := by
            simp only [processOneEvent, hcur]
            rfl
          obtain ⟨s', rows, h1, h2, h3, h4, h5⟩ :=
            ih { s with db := (s.db.insert_click wid x y b.as_str false).2 } hcur
          refine ⟨s', ⟨s.db.next_click_id, wid, x, y, b.as_str, false⟩ :: rows,
            ?_, ?_, ?_, ?_, ?_⟩
          · simp only [processEvents, he]
            exact h1
          · rw [h2]
            show (s.db.clicks ++ [⟨s.db.next_click_id, wid, x, y, b.as_str, false⟩]) ++ rows = _
            rw [List.append_assoc]
            rfl
          · rw [List.countP_cons]
            simp only [isMouseClick, if_true]
            rw [List.length_cons, h3]
          · intro r hr
            rcases List.mem_cons.mp hr with hr0 | hrr
            · subst hr0
              exact ⟨rfl, rfl⟩
            · exact h4 r hrr
          · exact h5
      | keyPress k =>
          obtain ⟨s', rows, h1, h2, h3, h4, h5⟩ :=
            ih { s with keystroke_buffer := s.keystroke_buffer ++ k } hcur
          refine ⟨s', rows, ?_, h2, ?_, h4, h5⟩
          · simp only [processEvents]
            exact h1
          · rw [List.countP_cons]
            simp [isMouseClick, h3]
      | keyRelease k =>
          obtain ⟨s', rows, h1, h2, h3, h4, h5⟩ := ih s hcur
          refine ⟨s', rows, ?_, h2, ?_, h4, h5⟩
          · simp only [processEvents]
            exact h1
          · rw [List.countP_cons]
            simp [isMouseClick, h3]
      | mouseMove x y =>
          obtain ⟨s', rows, h1, h2, h3, h4, h5⟩ := ih s hcur
          refine ⟨s', rows, ?_, h2, ?_, h4, h5⟩
          · simp only [processEvents]
            exact h1
          · rw [List.countP_cons]
            simp [isMouseClick, h3]
      | mouseScroll dx dy =>
          obtain ⟨s', rows, h1, h2, h3, h4, h5⟩ := ih s hcur
          refine ⟨s', rows, ?_, h2, ?_, h4, h5⟩
          · simp only [processEvents]
            exact h1
          · rw [List.countP_cons]
            simp [isMouseClick, h3]

/-- C7 amended: while a current window is known and the click write succeeds,
draining appends exactly one ClickEvent row per drained MouseClick event,
each tagged with the drain-time current window id; a MouseClick drained while
no current window is known is dropped without writing a row. -/
theorem clicks_tagged_current (evs : List InputEvent) (s : MonState) (wid : Int)
    (w : WindowInfo) (hcur : s.current_window = some (wid, w)) :
    (∃ s' rows, processEvents false evs s = .ok s'
      ∧ s'.db.clicks = s.db.clicks ++ rows
      ∧ rows.length = evs.countP isMouseClick
      ∧ (∀ r ∈ rows, r.window_id = wid ∧ r.double_click = false))
    ∧ (∀ s2 : MonState, s2.current_window = none → ∀ x y b,
        processOneEvent false s2 (.mouseClick x y b) = .ok s2) := by
  constructor
  · obtain ⟨s', rows, h1, h2, h3, h4, h5⟩ := processEvents_click_spec evs s wid w hcur
    exact ⟨s', rows, h1, h2, h3, h4⟩
  · intro s2 h2 x y b
    simp only [processOneEvent, h2]

/-- Witness for C7 at a single concrete MouseClick with a known window. -/
theorem clicks_tagged_current_witness :
    (∃ s' rows, processEvents false [.mouseClick 3 4 .left]
        ⟨Database.empty, some (1, wExA), ""⟩ = .ok s'
      ∧ s'.db.clicks = (⟨Database.empty, some (1, wExA), ""⟩ : MonState).db.clicks ++ rows
      ∧ rows.length = [InputEvent.mouseClick 3 4 .left].countP isMouseClick
      ∧ (∀ r ∈ rows, r.window_id = 1 ∧ r.double_click = false))
    ∧ (∀ s2 : MonState, s2.current_window = none → ∀ x y b,
        processOneEvent false s2 (.mouseClick x y b) = .ok s2) :=
  clicks_tagged_current [.mouseClick 3 4 .left] ⟨Database.empty, some (1, wExA), ""⟩ 1 wExA rfl

/-- Counterexample to C7 as stated: a MouseClick drained while no current
window is known produces no ClickEvent row at all (the tick returns the
state unchanged and the clicks table stays empty). -/
theorem click_without_window_dropped :
    tick cfgPlain none none [.mouseClick 3 4 .left] [] false false false false
        MonState.initial = .ok MonState.initial
      ∧ MonState.initial.db.clicks.length = 0 :=
  ⟨by decide, rfl⟩

/-- C5 amended: on a tick whose active window changed identity to a process
in the exclusion set, no Process row and no Window row is written, and the
in-memory current-window pointer is left unchanged (the source has no
clearing arm: the update is simply skipped). -/
theorem excluded_window_no_rows (config : Config) (encryptor : Option Encryptor)
    (w : WindowInfo) (evs : List InputEvent) (nonce : List Nat) (pf wf cf kf : Bool)
    (s s' : MonState)
    (hch : should_update s.current_window w = true)
    (hexc : config.exclude_apps.contains w.process_name = true)
    (hok : tick config encryptor (some w) evs nonce pf wf cf kf s = .ok s') :
    s'.current_window = s.current_window ∧ s'.db.processes = s.db.processes
      ∧ s'.db.windows = s.db.windows := by
  obtain ⟨s1, s2, h1, h2, h3⟩ :=
    tick_ok_decomp config encryptor (some w) evs nonce pf wf cf kf s s' hok
  rw [trackWindowChange_excluded config pf wf w s hexc] at h1
  injection h1 with h1'
  subst h1'
  have p2 := processEvents_preserves cf evs s s2 h2
  rcases h3 with h3 | h3
  · have p3 := flush_preserves encryptor nonce kf s2 s' h3
    exact ⟨p3.1.trans p2.1, p3.2.1.trans p2.2.1, p3.2.2.1.trans p2.2.2.1⟩
  · subst h3
    exact ⟨p2.1, p2.2.1, p2.2.2.1⟩

/-- Witness for C5 at a concrete excluded window, with a click drained in the
same tick so the resulting state differs from the starting one. -/
theorem excluded_window_no_rows_witness :
    should_update (some (1, wExA)) wExBit = true
      ∧ cfgBit.exclude_apps.contains wExBit.process_name = true
      ∧ ((⟨⟨[], [], [], [⟨1, 1, 3, 4, "left", false⟩], 1, 1, 1, 2⟩,
            some (1, wExA), ""⟩ : MonState).current_window
          = (⟨Database.empty, some (1, wExA), ""⟩ : MonState).current_window
        ∧ (⟨⟨[], [], [], [⟨1, 1, 3, 4, "left", false⟩], 1, 1, 1, 2⟩,
            some (1, wExA), ""⟩ : MonState).db.processes
          = (⟨Database.empty, some (1, wExA), ""⟩ : MonState).db.processes
        ∧ (⟨⟨[], [], [], [⟨1, 1, 3, 4, "left", false⟩], 1, 1, 1, 2⟩,
            some (1, wExA), ""⟩ : MonState).db.windows
          = (⟨Database.empty, some (1, wExA), ""⟩ : MonState).db.windows) :=
  ⟨by decide, by decide,
    excluded_window_no_rows cfgBit none wExBit [.mouseClick 3 4 .left] [] false false false false
      ⟨Database.empty, some (1, wExA), ""⟩
      ⟨⟨[], [], [], [⟨1, 1, 3, 4, "left", false⟩], 1, 1, 1, 2⟩, some (1, wExA), ""⟩
      (by decide) (by decide) (by decide)⟩

/-- Counterexample to C5 as stated: on an excluded changed window the tick
leaves the current-window pointer at its previous value instead of clearing
it to none. -/
theorem excluded_window_keeps_pointer :
    tick cfgBit none (some wExBit) [] [] false false false false
        ⟨Database.empty, some (1, wExA), ""⟩ = .ok ⟨Database.empty, some (1, wExA), ""⟩
      ∧ should_update (some (1, wExA)) wExBit = true
      ∧ cfgBit.exclude_apps.contains wExBit.process_name = true
      ∧ (⟨Database.empty, some (1, wExA), ""⟩ : MonState).current_window ≠ none :=
  ⟨by decide, by decide, by decide, by decide⟩

/-- C9: when the active window identity changes (exact string inequality on
the process-name or title) to a non-excluded window and both writes succeed,
the tick appends exactly one new Window row (all previous rows, including the
one for the previous window, are untouched) and moves the current-window
pointer to the new row's id. -/
theorem window_change_single_insert (config : Config) (encryptor : Option Encryptor)
    (evs : List InputEvent) (nonce : List Nat) (cf kf : Bool) (s s' : MonState)
    (idA : Int) (wA wB : WindowInfo)
    (hcur : s.current_window = some (idA, wA))
    (hch : wA.process_name ≠ wB.process_name ∨ wA.window_title ≠ wB.window_title)
    (hexc : config.exclude_apps.contains wB.process_name = false)
    (hok : tick config encryptor (some wB) evs nonce false false cf kf s = .ok s') :
    s'.db.windows = s.db.windows
        ++ [⟨s.db.next_window_id, (s.db.insert_process wB.process_name wB.bundle_id).1,
            wB.window_title, wB.x, wB.y, wB.width, wB.height⟩]
      ∧ s'.current_window = some (s.db.next_window_id, wB) := by
  have hsu : should_update s.current_window wB = true := by
    rw [hcur]
    simp only [should_update, Bool.or_eq_true, bne_iff_ne]
    exact hch
  obtain ⟨s1, s2, h1, h2, h3⟩ :=
    tick_ok_decomp config encryptor (some wB) evs nonce false false cf kf s s' hok
  rw [trackWindowChange_change config wB s hsu hexc] at h1
  injection h1 with h1'
  obtain ⟨hfw, hfk, hfc, hfnw, hfnk, hfnc⟩ :=
    insert_process_frame s.db wB.process_name wB.bundle_id
  have hw1 : s1.db.windows = s.db.windows
      ++ [⟨s.db.next_window_id, (s.db.insert_process wB.process_name wB.bundle_id).1,
          wB.window_title, wB.x, wB.y, wB.width, wB.height⟩] := by
    rw [← h1']
    show (s.db.insert_process wB.process_name wB.bundle_id).2.windows
        ++ [⟨(s.db.insert_process wB.process_name wB.bundle_id).2.next_window_id,
            (s.db.insert_process wB.process_name wB.bundle_id).1,
            wB.window_title, wB.x, wB.y, wB.width, wB.height⟩] = _
    rw [hfw, hfnw]
  have hc1 : s1.current_window = some (s.db.next_window_id, wB) := by
    rw [← h1']
    show some ((s.db.insert_process wB.process_name wB.bundle_id).2.next_window_id, wB) = _
    rw [hfnw]
  have p2 := processEvents_preserves cf evs s1 s2 h2
  rcases h3 with h3 | h3
  · have p3 := flush_preserves encryptor nonce kf s2 s' h3
    exact ⟨(p3.2.2.1.trans p2.2.2.1).trans hw1, (p3.1.trans p2.1).trans hc1⟩
  · subst h3
    exact ⟨p2.2.2.1.trans hw1, p2.1.trans hc1⟩

/-- Witness for C9 at the concrete transition from ("A","t1") to ("B","t2"). -/
theorem window_change_single_insert_witness :
    tick cfgPlain none (some wExB) [] [] false false false false
        ⟨Database.empty, some (1, wExA), ""⟩
      = .ok ⟨⟨[⟨1, "B", none⟩], [⟨1, 1, "t2", none, none, none, none⟩], [], [], 2, 2, 1, 1⟩,
          some (1, wExB), ""⟩
      ∧ ((⟨⟨[⟨1, "B", none⟩], [⟨1, 1, "t2", none, none, none, none⟩], [], [], 2, 2, 1, 1⟩,
            some (1, wExB), ""⟩ : MonState).db.windows
          = (⟨Database.empty, some (1, wExA), ""⟩ : MonState).db.windows
            ++ [⟨(⟨Database.empty, some (1, wExA), ""⟩ : MonState).db.next_window_id,
                ((⟨Database.empty, some (1, wExA), ""⟩ : MonState).db.insert_process
                  wExB.process_name wExB.bundle_id).1,
                wExB.window_title, wExB.x, wExB.y, wExB.width, wExB.height⟩]
        ∧ (⟨⟨[⟨1, "B", none⟩], [⟨1, 1, "t2", none, none, none, none⟩], [], [], 2, 2, 1, 1⟩,
            some (1, wExB), ""⟩ : MonState).current_window
          = some ((⟨Database.empty, some (1, wExA), ""⟩ : MonState).db.next_window_id, wExB)) :=
  ⟨by decide,
    window_change_single_insert cfgPlain none [] [] false false
      ⟨Database.empty, some (1, wExA), ""⟩
      ⟨⟨[⟨1, "B", none⟩], [⟨1, 1, "t2", none, none, none, none⟩], [], [], 2, 2, 1, 1⟩,
        some (1, wExB), ""⟩
      1 wExA wExB rfl (Or.inl (by decide)) (by decide) (by decide)⟩

/-- C6 amended: with a non-empty pending buffer and a known current window, a
flush with a succeeding write appends exactly one keys row whose payload is
the buffer's UTF-8 bytes passed through the Encryptor (raw bytes without
one), whose key_count is the buffer's UTF-8 byte length (Rust's
buffer.len(), equal to the character count only for one-byte characters),
and clears the buffer; decrypting the payload under the flush nonce recovers
the buffer bytes.  With no known current window the flush leaves the state,
buffer included, unchanged and writes nothing. -/
theorem flush_spec (encryptor : Option Encryptor) (nonce : List Nat) (s : MonState)
    (wid : Int) (w : WindowInfo)
    (hcur : s.current_window = some (wid, w))
    (hne : s.keystroke_buffer.isEmpty = false)
    (hnonce : nonce.length = 12) :
    flush_keystrokes encryptor nonce false s =
      .ok { s with
        db := { s.db with
          keys := s.db.keys ++ [⟨s.db.next_keys_id, wid,
            flushPayload encryptor nonce s.keystroke_buffer,
            ((strBytes s.keystroke_buffer).length : Int)⟩],
          next_keys_id := s.db.next_keys_id + 1 },
        keystroke_buffer := "" }
      ∧ (∀ e, encryptor = some e →
          e.decrypt (flushPayload encryptor nonce s.keystroke_buffer)
            = .ok (strBytes s.keystroke_buffer))
      ∧ (∀ s2 : MonState, s2.current_window = none →
          flush_keystrokes encryptor nonce false s2 = .ok s2) := by
  refine ⟨?_, ?_, ?_⟩
  · unfold flush_keystrokes
    simp only [hne, hcur]
    rfl
  · intro e he
    subst he
    exact Encryptor.decrypt_encrypt e nonce (strBytes s.keystroke_buffer) hnonce
  · intro s2 h2
    unfold flush_keystrokes
    by_cases hb : s2.keystroke_buffer.isEmpty = true
    · rw [if_pos hb]
    · rw [if_neg hb, h2]

/-- Witness for C6: a concrete flush of the buffer "abc" under a concrete
encryptor and nonce. -/
theorem flush_spec_witness :
    flush_keystrokes (some plainEncryptor) (List.replicate 12 0) false
        ⟨Database.empty, some (1, wExA), "abc"⟩ =
      .ok ⟨⟨[], [], [⟨1, 1,
          flushPayload (some plainEncryptor) (List.replicate 12 0) "abc",
          ((strBytes "abc").length : Int)⟩], [], 1, 1, 2, 1⟩, some (1, wExA), ""⟩
      ∧ plainEncryptor.decrypt
          (flushPayload (some plainEncryptor) (List.replicate 12 0) "abc")
        = .ok (strBytes "abc") := by
  have h := flush_spec (some plainEncryptor) (List.replicate 12 0)
    ⟨Database.empty, some (1, wExA), "abc"⟩ 1 wExA rfl (by decide) (by decide)
  exact ⟨h.1, h.2.1 plainEncryptor rfl⟩

/-- Counterexample to C6 as stated: flushing the one-character buffer "é"
(two UTF-8 bytes) writes key_count = 2, while the character count of the
buffer is 1 — key_count records the byte length, not the character count. -/
theorem flush_count_byte_not_char :
    flush_keystrokes none [] false ⟨Database.empty, some (1, wExA), "é"⟩ =
      .ok ⟨⟨[], [], [⟨1, 1, [195, 169], 2⟩], [], 1, 1, 2, 1⟩, some (1, wExA), ""⟩
      ∧ ("é" : String).length = 1 :=
  ⟨by decide, by decide⟩

/-- C2 amended: on a tick, only a failure of the insert_keys write inside the
flush is logged and swallowed (the tick still succeeds); a failure of
insert_click, insert_process or insert_window propagates out of start via
the question-mark operator and terminates the loop with a storage error. -/
theorem write_failure_handling (config : Config) (encryptor : Option Encryptor)
    (nonce : List Nat) (s : MonState) (wid : Int) (w wN : WindowInfo)
    (x y : Int) (b : MouseButton)
    (hcur : s.current_window = some (wid, w))
    (hsu : should_update s.current_window wN = true)
    (hexc : config.exclude_apps.contains wN.process_name = false) :
    (∀ wr evs, ∃ s', tick config encryptor wr evs nonce false false false true s = .ok s')
      ∧ tick config encryptor none [.mouseClick x y b] nonce false false true false s
          = .error .storage
      ∧ (∀ evs, tick config encryptor (some wN) evs nonce true false false false s
          = .error .storage)
      ∧ (∀ evs, tick config encryptor (some wN) evs nonce false true false false s
          = .error .storage) := by
  refine ⟨?_, ?_, ?_, ?_⟩
  · intro wr evs
    obtain ⟨s1, h1⟩ := trackWindowChange_total config wr s
    obtain ⟨s2, h2⟩ := processEvents_total evs s1
    unfold tick
    simp only [h1, h2]
    cases hf : flush_keystrokes encryptor nonce true s2 with
    | ok s3 => exact ⟨s3, by simp only [hf]⟩
    | error e => exact ⟨s2, by simp only [hf]⟩
  · have h1 : processOneEvent true s (.mouseClick x y b) = .error .storage := by
      simp only [processOneEvent, hcur]
      rfl
    unfold tick
    simp only [trackWindowChange, processEvents, h1]
  · intro evs
    unfold tick
    simp only [trackWindowChange_procFail config false wN s hsu hexc]
  · intro evs
    unfold tick
    simp only [trackWindowChange_winFail config wN s hsu hexc]

/-- Witness for C2 at a concrete state with a pending key in the buffer. -/
theorem write_failure_handling_witness :
    tick cfgPlain none none [.mouseClick 3 4 .left] [] false false true false
        ⟨Database.empty, some (1, wExA), "x"⟩ = .error .storage
      ∧ ∃ s', tick cfgPlain none (some wExB) [] [] false false false true
          ⟨Database.empty, some (1, wExA), "x"⟩ = .ok s' :=
  ⟨(write_failure_handling cfgPlain none [] ⟨Database.empty, some (1, wExA), "x"⟩
      1 wExA wExB 3 4 .left rfl (by decide) (by decide)).2.1,
    (write_failure_handling cfgPlain none [] ⟨Database.empty, some (1, wExA), "x"⟩
      1 wExA wExB 3 4 .left rfl (by decide) (by decide)).1 (some wExB) []⟩

/-- Counterexample to C2 as stated: a single failing insert_click write makes
the whole tick return a storage error, which propagates out of start and
terminates the loop, instead of being logged and skipped. -/
theorem click_failure_aborts_start :
    tick cfgPlain none none [.mouseClick 3 4 .left] [] false false true false
        ⟨Database.empty, some (1, wExA), ""⟩ = .error .storage := by
  decide

/-- Invariant of the clicks table: every row carries double_click = false. -/
def clicksOk (s : MonState) : Prop :=
  ∀ r ∈ s.db.clicks, r.double_click = false

/-- One drained event preserves the double-click invariant: a MouseClick is
the only event that writes a click row, and it writes false. -/
theorem processOneEvent_clicksOk (c : Bool) (s s' : MonState) (e : InputEvent)
    (h : processOneEvent c s e = .ok s') (hs : clicksOk s) : clicksOk s' := by
  cases e with
  | keyPress key =>
      injection h with h2
      subst h2
      exact hs
  | keyRelease key =>
      injection h with h2
      subst h2
      exact hs
  | mouseMove x y =>
      injection h with h2
      subst h2
      exact hs
  | mouseScroll dx dy =>
      injection h with h2
      subst h2
      exact hs
  | mouseClick x y b =>
      simp only [processOneEvent] at h
      split at h
      · split at h
        · exact absurd h (by simp)
        · injection h with h2
          subst h2
          intro r hr
          rcases List.mem_append.mp hr with hr1 | hr2
          · exact hs r hr1
          · rw [List.mem_singleton.mp hr2]
      · injection h with h2
        subst h2
        exact hs

/-- The event loop preserves the double-click invariant. -/
theorem processEvents_clicksOk (c : Bool) (evs : List InputEvent) (s s' : MonState)
    (h : processEvents c evs s = .ok s') (hs : clicksOk s) : clicksOk s' := by
  induction evs generalizing s with
  | nil =>
      injection h with h2
      subst h2
      exact hs
  | cons e t ih =>
      simp only [processEvents] at h
      split at h
      · exact absurd h (by simp)
      · rename_i s1 heq
        exact ih s1 h (processOneEvent_clicksOk c s s1 e heq hs)

/-- One tick preserves the double-click invariant. -/
theorem tick_clicksOk (config : Config) (encryptor : Option Encryptor)
    (wr : Option WindowInfo) (evs : List InputEvent) (nonce : List Nat)
    (pf wf cf kf : Bool) (s s' : MonState)
    (h : tick config encryptor wr evs nonce pf wf cf kf s = .ok s')
    (hs : clicksOk s) : clicksOk s' := by
  obtain ⟨s1, s2, h1, h2, h3⟩ :=
    tick_ok_decomp config encryptor wr evs nonce pf wf cf kf s s' h
  have hc1 : s1.db.clicks = s.db.clicks :=
    (trackWindowChange_frame config pf wf wr s s1 h1).2.1
  have hs1 : clicksOk s1 := by
    intro r hr
    rw [hc1] at hr
    exact hs r hr
  have hs2 : clicksOk s2 := processEvents_clicksOk cf evs s1 s2 h2 hs1
  rcases h3 with h3 | h3
  · have hcf : s'.db.clicks = s2.db.clicks :=
      (flush_preserves encryptor nonce kf s2 s' h3).2.2.2
    intro r hr
    rw [hcf] at hr
    exact hs2 r hr
  · subst h3
    exact hs2

/-- The whole loop preserves the double-click invariant. -/
theorem runTicks_clicksOk (config : Config) (encryptor : Option Encryptor)
    (inputs : List TickInput) (s s' : MonState)
    (h : runTicks config encryptor inputs s = .ok s') (hs : clicksOk s) : clicksOk s' := by
  induction inputs generalizing s with
  | nil =>
      injection h with h2
      subst h2
      exact hs
  | cons inp rest ih =>
      simp only [runTicks] at h
      split at h
      · exact absurd h (by simp)
      · rename_i s1 heq
        exact ih s1 h (tick_clicksOk config encryptor inp.window_read inp.events inp.nonce
          inp.faults.procFail inp.faults.winFail inp.faults.clickFail inp.faults.keysFail
          s s1 heq hs)

/-- C10: every reachable store state the Monitor produces from a fresh start
has only click rows with double_click = false — the MouseClick arm always
passes the literal false to insert_click. -/
theorem clicks_never_double (config : Config) (encryptor : Option Encryptor)
    (inputs : List TickInput) (s' : MonState)
    (h : runTicks config encryptor inputs MonState.initial = .ok s') :
    ∀ r ∈ s'.db.clicks, r.double_click = false :=
  runTicks_clicksOk config encryptor inputs MonState.initial s' h
    (fun r hr => absurd hr (by simp [MonState.initial, Database.empty]))

/-- Witness for C10: a concrete run of one tick that records one click. -/
theorem clicks_never_double_witness :
    runTicks cfgPlain none [⟨some wExA, [.mouseClick 3 4 .left], [], noFaults⟩]
        MonState.initial
      = .ok ⟨⟨[⟨1, "A", none⟩], [⟨1, 1, "t1", none, none, none, none⟩], [],
          [⟨1, 1, 3, 4, "left", false⟩], 2, 2, 1, 2⟩, some (1, wExA), ""⟩
      ∧ ∀ r ∈ (⟨⟨[⟨1, "A", none⟩], [⟨1, 1, "t1", none, none, none, none⟩], [],
          [⟨1, 1, 3, 4, "left", false⟩], 2, 2, 1, 2⟩,
          some (1, wExA), ""⟩ : MonState).db.clicks, r.double_click = false :=
  ⟨by decide, clicks_never_double cfgPlain none
    [⟨some wExA, [.mouseClick 3 4 .left], [], noFaults⟩] _ (by decide)⟩
